import Mathlib

set_option maxRecDepth 100000

/-!
Verification development for the email-verification engine.

This file gives a shallow embedding, in Lean 4, of the core functions of the
repository (the enhanced verifier pipeline in src/config/queue.js, the rate
governor and basic verifier in src/utils, and the advanced verifier), and
proves or refutes the specification claims about them.

External effects (Redis cache, DNS, sockets, the system clock) are modelled
by an explicit environment record; each JavaScript function that consults
such an effect takes the environment as an argument.  Fallible operations
return an Except value, mirroring JavaScript exceptions; try/catch blocks
become matches on that Except.  Mutation of the result object is modelled by
explicit record update.  Wall-clock fields (timestamp, processingTimeMs) are
not modelled; no claim mentions them.
-/

namespace EmailVerification

/-- JavaScript String.prototype.includes, on ASCII strings: substring test. -/
def strIncludes (s sub : String) : Bool :=
  (List.range (s.toList.length + 1)).any fun i =>
    sub.toList.isPrefixOf (s.toList.drop i)

/-- JavaScript String.prototype.split with a one-character separator, as used
by the source (split on at-sign and on dot): every occurrence of the separator
splits, empty pieces are kept. -/
def splitCharAux (sep : Char) : List Char → List Char → List String
  | [], acc => [String.mk acc.reverse]
  | c :: cs, acc =>
    if c == sep then String.mk acc.reverse :: splitCharAux sep cs []
    else splitCharAux sep cs (c :: acc)

/-- JavaScript s.split(sep) for a single-character sep. -/
def jsSplit (s : String) (sep : Char) : List String :=
  splitCharAux sep s.toList []

/-- JavaScript String.prototype.startsWith. -/
def jsStartsWith (s pre : String) : Bool :=
  pre.toList.isPrefixOf s.toList

/-- JavaScript String.prototype.endsWith. -/
def jsEndsWith (s suf : String) : Bool :=
  suf.toList.isSuffixOf s.toList

/-- JavaScript String.prototype.toLowerCase on ASCII strings. -/
def jsToLower (s : String) : String :=
  String.mk (s.toList.map Char.toLower)

/-- One inner loop pass of levenshteinDistance (see below): given the
characters of b, the previous matrix row shifted so that its head is the
diagonal entry matrix i-1 j-1, and the entry matrix i j-1 just computed to
the left, produce the entries matrix i j for j = 1..|b|. -/
def levRowAux (ai : Char) : List Char → List Nat → Nat → List Nat
  | [], _, _ => []
  | bj :: brest, pdiag :: prest, left =>
    let up := prest.headD 0
    let cost := if ai == bj then 0 else 1
    let v := min (up + 1) (min (left + 1) (pdiag + cost))
    v :: levRowAux ai brest prest v
  | _ :: _, [], _ => []

/-- The outer loop of levenshteinDistance: fold rows i = 1..|a| of the
dynamic-programming matrix, starting from row 0 = 0,1,...,|b|. -/
def levLoop (bs : List Char) : List Char → Nat → List Nat → List Nat
  | [], _, prev => prev
  | ai :: arest, i, prev => levLoop bs arest (i + 1) (i :: levRowAux ai bs prev i)

/-- Embeds levenshteinDistance from src/config/queue.js lines 1228-1248 (the
identical function also appears in src/utils/emailVerifier.js lines 208-236).
The source fills a matrix of size |a|+1 times |b|+1 with matrix i 0 = i,
matrix 0 j = j, and matrix i j the minimum of matrix i-1 j + 1,
matrix i j-1 + 1 and matrix i-1 j-1 + cost; row i of that matrix depends only
on row i-1 and on the entries of row i already computed, so the matrix is
built here row by row; the returned value is matrix |a| |b|, the last entry
of the last row. -/
def levenshteinDistance (a b : String) : Nat :=
  if a.length = 0 then b.length
  else if b.length = 0 then a.length
  else
    let bs := b.toList
    let row0 := List.range (bs.length + 1)
    (levLoop bs a.toList 1 row0).getLastD 0

/-- The commonDomains table of EnhancedEmailVerifier.suggestCorrection
(src/config/queue.js lines 1148-1159), in object-key insertion order:
each well-known domain with its list of known variants. -/
def commonDomains : List (String × List String) :=
  [("gmail.com", ["gmail.com", "googlemail.com"]),
   ("yahoo.com", ["yahoo.com", "yahoo.co.uk", "yahoo.ca", "yahoo.fr"]),
   ("hotmail.com", ["hotmail.com", "outlook.com", "live.com"]),
   ("outlook.com", ["outlook.com", "hotmail.com"]),
   ("aol.com", ["aol.com"]),
   ("icloud.com", ["icloud.com", "me.com", "mac.com"]),
   ("protonmail.com", ["protonmail.com", "pm.me"]),
   ("gmx.com", ["gmx.com", "gmx.de"]),
   ("mail.com", ["mail.com"]),
   ("yandex.com", ["yandex.com", "yandex.ru"])]

/-- The hard-coded typo corrections map of EnhancedEmailVerifier.suggestCorrection
(src/config/queue.js lines 1162-1196). -/
def corrections : List (String × String) :=
  [("gmal.com", "gmail.com"), ("gamil.com", "gmail.com"),
   ("gnail.com", "gmail.com"), ("gmial.com", "gmail.com"),
   ("gmail.co", "gmail.com"), ("gmail.con", "gmail.com"),
   ("gmail.om", "gmail.com"), ("gmail.cm", "gmail.com"),
   ("gmaill.com", "gmail.com"), ("gemail.com", "gmail.com"),
   ("gmai.com", "gmail.com"), ("gmali.com", "gmail.com"),
   ("yahooo.com", "yahoo.com"), ("yaho.com", "yahoo.com"),
   ("yahoo.co", "yahoo.com"), ("yahoo.con", "yahoo.com"),
   ("yaho.co", "yahoo.com"), ("yaoo.com", "yahoo.com"),
   ("ymail.com", "yahoo.com"),
   ("hotmial.com", "hotmail.com"), ("hotmail.co", "hotmail.com"),
   ("hotmal.com", "hotmail.com"), ("hotmai.com", "hotmail.com"),
   ("hotmail.cm", "hotmail.com"), ("hotmail.con", "hotmail.com"),
   ("hotamail.com", "hotmail.com"), ("hotmali.com", "hotmail.com"),
   ("outlok.com", "outlook.com"), ("outook.com", "outlook.com"),
   ("outlook.co", "outlook.com"), ("outlook.con", "outlook.com"),
   ("iclod.com", "icloud.com"), ("icloud.co", "icloud.com")]

/-- JavaScript object property lookup on the corrections map. -/
def correctionsLookup (domain : String) : Option String :=
  (corrections.find? fun p => p.1 == domain).map Prod.snd

/-- The well-known-domain scan of EnhancedEmailVerifier.suggestCorrection
(src/config/queue.js lines 1205-1219): walk commonDomains in insertion order;
if the domain is listed among a key's variants, return no suggestion; on the
first key within Levenshtein distance 2, suggest that key. -/
def scanCommonDomains (domain : String) : List (String × List String) → Option String
  | [] => none
  | (correctDomain, variants) :: rest =>
    if variants.contains domain then none
    else if levenshteinDistance domain correctDomain ≤ 2 then some correctDomain
    else scanCommonDomains domain rest

/-- Embeds EnhancedEmailVerifier.suggestCorrection (src/config/queue.js lines
1141-1220) as a function from the email to the suggestion it stores in
result.suggestion (none when the method returns without writing one). -/
def suggestCorrection (email : String) : Option String :=
  let parts := jsSplit email '@' 
  match parts with
  | [username, domain] =>
    match correctionsLookup domain with
    | some corrected => some (username ++ "@" ++ corrected)
    | none =>
      match scanCommonDomains domain commonDomains with
      | some correctDomain => some (username ++ "@" ++ correctDomain)
      | none => none
  | _ => none

/-- The commonDomains list of the basic EmailVerifier.suggestCorrection
(src/utils/emailVerifier.js lines 155-163). -/
def basicCommonDomains : List String :=
  ["gmail.com", "yahoo.com", "hotmail.com", "outlook.com", "aol.com",
   "icloud.com", "protonmail.com"]

/-- The corrections map of the basic EmailVerifier.suggestCorrection
(src/utils/emailVerifier.js lines 171-185). -/
def basicCorrections : List (String × String) :=
  [("gmal.com", "gmail.com"), ("gamil.com", "gmail.com"),
   ("gmial.com", "gmail.com"), ("gmail.co", "gmail.com"),
   ("gmaill.com", "gmail.com"),
   ("yahooo.com", "yahoo.com"), ("yaho.com", "yahoo.com"),
   ("yahoo.co", "yahoo.com"),
   ("hotmial.com", "hotmail.com"), ("hotmal.com", "hotmail.com"),
   ("hotmai.com", "hotmail.com"),
   ("outlok.com", "outlook.com"), ("outook.com", "outlook.com")]

/-- Embeds the basic EmailVerifier.suggestCorrection (src/utils/emailVerifier.js
lines 154-200): hard-coded corrections first, then the first common domain at
Levenshtein distance exactly 1. -/
def basicSuggestCorrection (email : String) : Option String :=
  let parts := jsSplit email '@' 
  match parts with
  | [username, domain] =>
    match (basicCorrections.find? fun p => p.1 == domain).map Prod.snd with
    | some corrected => some (username ++ "@" ++ corrected)
    | none =>
      match basicCommonDomains.find? fun d => levenshteinDistance domain d == 1 with
      | some correctDomain => some (username ++ "@" ++ correctDomain)
      | none => none
  | _ => none

/-! ## Rate governor (utils/ipRotation.js, bundled in src/utils/emailVerifier.js) -/

/-- A per-domain rate-limit row, fields named after the source table. -/
structure RateLimitConfig where
  maxPerMinute : Nat
  maxPerHour : Nat
deriving DecidableEq

/-- The domainRateLimits table (utils/ipRotation.js lines 460-467).  The
default row is kept separately for the lookup below. -/
def domainRateLimits : List (String × RateLimitConfig) :=
  [("gmail.com", ⟨20, 250⟩), ("yahoo.com", ⟨10, 150⟩),
   ("hotmail.com", ⟨15, 200⟩), ("outlook.com", ⟨15, 200⟩),
   ("aol.com", ⟨10, 150⟩)]

/-- The default row of domainRateLimits. -/
def defaultRateLimit : RateLimitConfig := ⟨30, 300⟩

/-- domainRateLimits lookup with fallback to the default row, mirroring
domainRateLimits at domainKey or-else domainRateLimits at default.  The
limits table and default are parameters since the source reads module
configuration. -/
def getRateLimit (limits : List (String × RateLimitConfig))
    (dflt : RateLimitConfig) (domainKey : String) : RateLimitConfig :=
  ((limits.find? fun p => p.1 == domainKey).map Prod.snd).getD dflt

/-- The governor state for one recipient domain: the Redis counters
smtp:domain:minute and smtp:domain:hour inside their current windows, and
the shared round-robin index smtp:ip_index (missing keys read as 0). -/
structure GovernorState where
  minuteCount : Nat := 0
  hourCount : Nat := 0
  ipIndex : Nat := 0
deriving DecidableEq

/-- Embeds getNextIp (utils/ipRotation.js lines 474-522) within one pair of
rate windows (counter expiry is wall-clock TTL, outside this model): check
the minute then the hour counter against the limits; on success increment
both counters, advance the round-robin index modulo the pool size, and
return the pool entry at the index read before advancing.  Thrown rate-limit
errors are the Except.error case; the catch-all that returns the first pool
entry on other infrastructure errors is not reachable in this pure model. -/
def getNextIp (limits : List (String × RateLimitConfig)) (dflt : RateLimitConfig)
    (ipPool : List String) (st : GovernorState) (domain : String) :
    Except String (Option String) × GovernorState :=
  let domainKey := jsToLower domain
  let limitConfig := getRateLimit limits dflt domainKey
  if limitConfig.maxPerMinute ≤ st.minuteCount then
    (.error ("RATE_LIMIT_MINUTE:" ++ domain), st)
  else if limitConfig.maxPerHour ≤ st.hourCount then
    (.error ("RATE_LIMIT_HOUR:" ++ domain), st)
  else
    (.ok (ipPool.get? st.ipIndex),
     { minuteCount := st.minuteCount + 1, hourCount := st.hourCount + 1,
       ipIndex := (st.ipIndex + 1) % ipPool.length })

/-- The governor state after n sequential getNextIp calls for the same
domain from the zero state (all inside one minute window). -/
def acquireIter (limits : List (String × RateLimitConfig)) (dflt : RateLimitConfig)
    (ipPool : List String) (domain : String) : Nat → GovernorState
  | 0 => {}
  | n + 1 => (getNextIp limits dflt ipPool (acquireIter limits dflt ipPool domain n) domain).2

/-- The outcome of the (n+1)-st sequential getNextIp call. -/
def acquireResult (limits : List (String × RateLimitConfig)) (dflt : RateLimitConfig)
    (ipPool : List String) (domain : String) (n : Nat) : Except String (Option String) :=
  (getNextIp limits dflt ipPool (acquireIter limits dflt ipPool domain n) domain).1

/-! ## SMTP probe (EnhancedEmailVerifier.performSmtpCheck, src/config/queue.js
lines 878-1032).  The socket callback chain is embedded as a state machine
whose input is the sequence of socket events; the response buffer
accumulates every received chunk. -/

/-- What the data handler writes back to the server (the written text itself
never matters to the recorded outcome). -/
inductive SmtpAction
  | sendHelo
  | sendMailFrom
  | sendRcptTo
deriving DecidableEq

/-- The mutable state captured by the performSmtpCheck callbacks. -/
structure ProbeState where
  responseBuffer : String := ""
  resolved : Bool := false
  smtpCheck : Bool := false
  errors : List String := []
  failureReason : Option String := none
deriving DecidableEq

/-- The socket events a probe can observe: a data chunk, the 10 s socket
timeout, a connection error, or the close event.  setupError is a synchronous
exception from socket creation (the inner catch of lines 1012-1020). -/
inductive SmtpEvent
  | data (chunk : String)
  | timeout
  | sockError (msg : String)
  | close
  | setupError (msg : String)
deriving DecidableEq

/-- The data handler (src/config/queue.js lines 918-980): append the chunk to
the cumulative response buffer, then walk the if/else-if chain of
buffer-containment tests in source order. -/
def onData (st : ProbeState) (chunk : String) : ProbeState × Option SmtpAction :=
  if st.resolved then (st, none)
  else
    let buf := st.responseBuffer ++ chunk
    let st := { st with responseBuffer := buf }
    if strIncludes buf "220" then
      (st, some .sendHelo)
    else if strIncludes buf "250" && !strIncludes buf "MAIL FROM" then
      (st, some .sendMailFrom)
    else if strIncludes buf "250" && strIncludes buf "MAIL FROM" then
      (st, some .sendRcptTo)
    else if strIncludes buf "250" && strIncludes buf "RCPT TO" then
      ({ st with resolved := true, smtpCheck := true }, none)
    else if strIncludes buf "550" || strIncludes buf "553" then
      ({ st with resolved := true, smtpCheck := false,
                 errors := st.errors ++ ["SMTP check failed: address rejected"],
                 failureReason := some "rejected" }, none)
    else if buf.length > 1000 then
      ({ st with resolved := true, smtpCheck := false,
                 errors := st.errors ++ ["SMTP check failed: unexpected response"],
                 failureReason := some "unexpected_response" }, none)
    else
      (st, none)

/-- One socket event (the timeout, error and close handlers of lines
893-916 and 982-990, and the inner catch of lines 1012-1020). -/
def onEvent (st : ProbeState) : SmtpEvent → ProbeState × Option SmtpAction
  | .data chunk => onData st chunk
  | .timeout =>
    if st.resolved then (st, none)
    else ({ st with resolved := true, smtpCheck := false,
                    errors := st.errors ++ ["SMTP connection timed out"],
                    failureReason := some "timeout" }, none)
  | .sockError msg =>
    if st.resolved then (st, none)
    else ({ st with resolved := true, smtpCheck := false,
                    errors := st.errors ++ ["SMTP connection error: " ++ msg],
                    failureReason := some "connection_error" }, none)
  | .close =>
    if st.resolved then (st, none)
    else ({ st with resolved := true, smtpCheck := false,
                    errors := st.errors ++ ["SMTP connection closed unexpectedly"],
                    failureReason := some "connection_closed" }, none)
  | .setupError msg =>
    if st.resolved then (st, none)
    else ({ st with resolved := true, smtpCheck := false,
                    errors := st.errors ++ ["SMTP check failed: " ++ msg],
                    failureReason := some "exception" }, none)

/-- The probe state after a sequence of socket events. -/
def runProbe (events : List SmtpEvent) : ProbeState :=
  events.foldl (fun st e => (onEvent st e).1) {}

/-- The final outcome of one probe: run the events; if nothing resolved the
promise, the 15 s global setTimeout (lines 1002-1011) resolves it. -/
def probeOutcome (events : List SmtpEvent) : ProbeState :=
  let st := runProbe events
  if st.resolved then st
  else { st with resolved := true, smtpCheck := false,
                 errors := st.errors ++ ["SMTP check timed out"],
                 failureReason := some "global_timeout" }

/-! ## The enhanced verifier pipeline (EnhancedEmailVerifier, src/config/queue.js
lines 545-1249). -/

/-- A DNS MX record, as returned by dns.resolveMx. -/
structure MxRecord where
  exchange : String
  priority : Int
deriving DecidableEq

/-- result.details.mx (src/config/queue.js lines 860-863). -/
structure MxDetails where
  records : List MxRecord
  count : Nat
deriving DecidableEq

/-- result.details.syntax (src/config/queue.js lines 790-794); named
syntaxInfo because syntax is reserved in Lean. -/
structure SyntaxInfo where
  usernameLength : Nat
  domainParts : Nat
  tld : String
deriving DecidableEq

/-- result.details.spamTrapIndicators (src/config/queue.js lines 1125-1129). -/
structure SpamTrapIndicators where
  randomUsername : Bool
  newDomain : Bool
  suspiciousTxtRecords : Bool
deriving DecidableEq

/-- result.details: fields are optional because the source adds them only on
the code paths that compute them (none models the absent JavaScript field,
which reads as undefined, i.e. false in boolean position). -/
structure VerificationDetails where
  smtpBlocked : Option Bool := none
  mx : Option MxDetails := none
  syntaxInfo : Option SyntaxInfo := none
  catchAll : Option Bool := none
  spamTrapIndicators : Option SpamTrapIndicators := none
deriving DecidableEq

/-- The result record of EnhancedEmailVerifier.verify (src/config/queue.js
lines 572-588).  timestamp and processingTimeMs are wall-clock fields and
are not modelled.  The fallback result of the outer catch (lines 727-732)
carries only email, isValid, errors; it is modelled as this record with the
remaining fields at their defaults. -/
structure VerificationResult where
  email : String
  isValid : Bool := false
  formatValid : Bool := false
  hasMx : Bool := false
  isDisposable : Bool := false
  isCatchAll : Bool := false
  isRoleAccount : Bool := false
  isSpamTrap : Bool := false
  smtpCheck : Bool := false
  suggestion : Option String := none
  domain : Option String := none
  errors : List String := []
  details : VerificationDetails := {}
  fromCache : Bool := false
deriving DecidableEq

/-- Modelled from the spec: the embedded disposable-domain list that
src/config/queue.js line 527 loads from "./disposableEmailDomains", a module
absent from the sources.  Spec section 4.3 specifies an embedded list with
case-insensitive exact matching and the glossary and scenario 3 name
mailinator.com as a member; the visible analogue embedded in
src/utils/emailVerifier.js lines 12-21 is used as the model. -/
def DisposableEmailDomains : List String :=
  ["mailinator.com", "tempmail.com", "guerrillamail.com", "temp-mail.org",
   "fakeinbox.com", "10minutemail.com", "yopmail.com", "throwawaymail.com"]

/-- Embeds EnhancedEmailVerifier.checkDisposableDomain (src/config/queue.js
lines 802-808). -/
def checkDisposableDomain (domain : String) (r : VerificationResult) :
    VerificationResult :=
  let r := { r with isDisposable := DisposableEmailDomains.contains domain }
  if r.isDisposable then
    { r with errors := r.errors ++ ["Disposable email address detected"] }
  else r

/-- The environment of one verify call: every external effect the pipeline
consults.  Functions model the cache, DNS, the rate governor and the SMTP
sockets; a field models the outcome of the overall-timeout race. -/
structure VerifyEnv where
  cachedResult : String → Option VerificationResult
  punycodeToAscii : String → Except String String
  validatorIsEmail : String → Bool
  cachedMx : String → Option (List MxRecord)
  resolveMx : String → Except String (List MxRecord)
  altResolveMx : String → Except String (List MxRecord)
  domainBlocked : String → Except String Bool
  acquireIp : String → Except String (Option String)
  smtpEvents : String → List SmtpEvent
  resolveTxt : String → Except String (List (List String))
  randomString : String
  timeoutFires : Bool

/-- The additional checks of performSyntaxCheck (src/config/queue.js lines
756-794), computed purely from the email: the final formatValid flag
(starting from true after the validator accepted), the error tags pushed, in
push order, and the details.syntax record.  Each failed check flips
formatValid to false and pushes one tag; the hyphen loop pushes its tag once
(it breaks after the first offending label). -/
def syntaxCheckFlags (email : String) : Bool × List String × SyntaxInfo :=
  let parts := jsSplit email '@'
  let username := parts.headD ""
  let domain := (parts.drop 1).headD ""
  let checkA := decide (64 < username.length)
  let checkB := strIncludes username ".." || strIncludes domain ".."
  let domainParts := jsSplit domain '.'
  let checkC := domainParts.any fun part => jsStartsWith part "-" || jsEndsWith part "-"
  let tld := domainParts.getLastD ""
  let checkD := decide (tld.length < 2)
  (!checkA && !checkB && !checkC && !checkD,
   (if checkA then ["Username exceeds maximum length (64 characters)"] else [])
     ++ (if checkB then ["Consecutive dots are not allowed"] else [])
     ++ (if checkC then ["Domain parts cannot start or end with hyphens"] else [])
     ++ (if checkD then ["Top-level domain is too short"] else []),
   ⟨username.length, domainParts.length, tld⟩)

/-- Embeds EnhancedEmailVerifier.performSyntaxCheck (src/config/queue.js
lines 741-795): the validator.isEmail library call is an environment
predicate; when it rejects, only the format tag is pushed (early return at
line 753); otherwise the additional checks update the result as computed by
syntaxCheckFlags. -/
def performSyntaxCheck (env : VerifyEnv) (email : String) (r : VerificationResult) :
    VerificationResult :=
  if !env.validatorIsEmail email then
    { r with errors := r.errors ++ ["Invalid email format"] }
  else
    let flags := syntaxCheckFlags email
    { r with formatValid := flags.1,
             errors := r.errors ++ flags.2.1,
             details := { r.details with syntaxInfo := some flags.2.2 } }

/-- Whether performSyntaxCheck would leave formatValid true for this email
in this environment. -/
def syntaxPasses (env : VerifyEnv) (email : String) : Bool :=
  env.validatorIsEmail email && (syntaxCheckFlags email).1

/-- Embeds EnhancedEmailVerifier.checkMxRecords (src/config/queue.js lines
816-870): cached records first, else the primary resolver, else (when
enabled) the alternative resolver rethrowing the primary error on a double
failure; a caught error appends to errors and clears hasMx. -/
def checkMxRecords (env : VerifyEnv) (domain : String) (useAlternative : Bool)
    (r : VerificationResult) : VerificationResult :=
  let lookedUp : Except String (List MxRecord) :=
    match env.cachedMx domain with
    | some cached => .ok cached
    | none =>
      match env.resolveMx domain with
      | .ok records => .ok records
      | .error primaryError =>
        if useAlternative then
          match env.altResolveMx domain with
          | .ok records => .ok records
          | .error _ => .error primaryError
        else .error primaryError
  match lookedUp with
  | .error msg =>
    { r with errors := r.errors ++ ["MX lookup failed: " ++ msg], hasMx := false }
  | .ok mxRecords =>
    let r := { r with hasMx := !mxRecords.isEmpty }
    if !r.hasMx then
      { r with errors := r.errors ++ ["No MX records found for domain"] }
    else
      { r with details := { r.details with
          mx := some ⟨mxRecords.take 3, mxRecords.length⟩ } }

/-- Embeds EnhancedEmailVerifier.performSmtpCheck (src/config/queue.js lines
878-1032): acquire an IP from the governor; on a thrown error record it and,
when the message begins RATE_LIMIT, mark smtpCheck true (lines 1022-1031);
otherwise run the socket machine and take over its recorded outcome. -/
def performSmtpCheck (env : VerifyEnv) (domain email : String)
    (r : VerificationResult) : VerificationResult :=
  match env.acquireIp domain with
  | .error e =>
    let r := { r with smtpCheck := false,
                      errors := r.errors ++ ["SMTP check error: " ++ e] }
    if jsStartsWith e "RATE_LIMIT" then { r with smtpCheck := true } else r
  | .ok _ =>
    let st := probeOutcome (env.smtpEvents email)
    { r with smtpCheck := st.smtpCheck, errors := r.errors ++ st.errors }

/-- Embeds EnhancedEmailVerifier.checkCatchAllDomain (src/config/queue.js
lines 1056-1082): probe a pseudo-random address at the same domain and mark
the domain catch-all exactly when that probe records smtpCheck. -/
def checkCatchAllDomain (env : VerifyEnv) (domain : String)
    (r : VerificationResult) : VerificationResult :=
  let nonExistentEmail := env.randomString ++ "_test_nonexistent@" ++ domain
  let testResult := performSmtpCheck env domain nonExistentEmail { email := nonExistentEmail }
  let r := { r with isCatchAll := testResult.smtpCheck }
  if r.isCatchAll then
    { r with details := { r.details with catchAll := some true } }
  else r

/-- The random-username test of checkSpamTrapIndicators (src/config/queue.js
lines 1096-1097): the case-insensitive regex of eight or more alphanumerics
combined with the absence of (case-insensitive) vowels. -/
def isRandomUsername (username : String) : Bool :=
  let hasVowels := username.toList.any (fun c => ("aeiouAEIOU".toList).contains c)
  (decide (8 ≤ username.length) && username.toList.all (fun c => c.isAlphanum))
    && !hasVowels

/-- The TXT-record test of checkSpamTrapIndicators (src/config/queue.js
lines 1104-1115): join the TXT chunks, then each record set, with spaces and
match spam, trap or honeypot case-insensitively; a lookup error reads as no
match. -/
def hasSuspiciousTxt (env : VerifyEnv) (domain : String) : Bool :=
  match env.resolveTxt domain with
  | .ok txtRecords =>
    let flatRecords := String.intercalate " " (txtRecords.map String.join)
    let lower := jsToLower flatRecords
    strIncludes lower "spam" || strIncludes lower "trap" || strIncludes lower "honeypot"
  | .error _ => false

/-- Embeds EnhancedEmailVerifier.checkSpamTrapIndicators (src/config/queue.js
lines 1091-1134).  isNewDomain is the hardcoded false placeholder of line
1101; a TXT lookup error is swallowed (lines 1113-1115). -/
def checkSpamTrapIndicators (env : VerifyEnv) (domain username : String)
    (r : VerificationResult) : VerificationResult :=
  let isRandom := isRandomUsername username
  let isNewDomain := false
  let hasSuspiciousTxtRecords := hasSuspiciousTxt env domain
  let r := { r with isSpamTrap := isRandom || (isNewDomain && hasSuspiciousTxtRecords) }
  let r :=
    if r.isSpamTrap then
      { r with errors := r.errors ++ ["Email matches spam trap patterns"] }
    else r
  { r with details := { r.details with
      spamTrapIndicators := some ⟨isRandom, isNewDomain, hasSuspiciousTxtRecords⟩ } }

/-- The option record of EnhancedEmailVerifier.verify with its defaults
(src/config/queue.js lines 554-568).  logVerification is unused by the
method and the numeric timeout is represented by the environment's
timeoutFires outcome. -/
structure VerifyOptions where
  checkCache : Bool := true
  checkSyntax : Bool := true
  checkMx : Bool := true
  checkDisposable : Bool := true
  checkDomainTypos : Bool := true
  checkCatchAll : Bool := true
  checkSmtp : Bool := true
  checkSpamTrap : Bool := true
  checkRoleAccount : Bool := true
  cacheResults : Bool := true
  useAlternativeDns : Bool := false
deriving DecidableEq

/-- A cacheVerificationResult call (src/utils/cache.js lines 103-115)
recorded by the pipeline: key verify:email-lowercased, the stored result,
and the TTL in seconds. -/
structure CacheWrite where
  key : String
  result : VerificationResult
  duration : Nat
deriving DecidableEq

/-- Which return statement of EnhancedEmailVerifier.verify produced the
result: the cache hit (line 601), the missing at-sign return (line 610), the
punycode catch (line 623), the failed-syntax return (line 636), or the
normal end of the pipeline after aggregation (line 719). -/
inductive VerifyOutcome
  | cached (r : VerificationResult)
  | invalidFormat (r : VerificationResult)
  | encodingError (r : VerificationResult)
  | syntaxFail (r : VerificationResult)
  | completed (r : VerificationResult)
deriving DecidableEq

/-- The result carried by an outcome. -/
def VerifyOutcome.result : VerifyOutcome → VerificationResult
  | .cached r => r
  | .invalidFormat r => r
  | .encodingError r => r
  | .syntaxFail r => r
  | .completed r => r

/-- Steps 5-8 of EnhancedEmailVerifier.verify (src/config/queue.js lines
667-700), all gated on hasMx: the blocklist lookup (a caught failure reads
as not blocked), the SMTP probe when unblocked, the catch-all probe when the
probe succeeded on a non-disposable domain, and the spam-trap heuristic. -/
def runMainChecks (env : VerifyEnv) (email username domain : String)
    (opts : VerifyOptions) (result : VerificationResult) : VerificationResult :=
  if result.hasMx then
    let domainBlocked :=
      match env.domainBlocked domain with
      | .ok b => b
      | .error _ => false
    let result := { result with details := { result.details with smtpBlocked := some domainBlocked } }
    let result :=
      if opts.checkSmtp && !domainBlocked then
        performSmtpCheck env domain email result
      else result
    let result :=
      if opts.checkCatchAll && result.smtpCheck && !result.isDisposable then
        checkCatchAllDomain env domain result
      else result
    let result :=
      if opts.checkSpamTrap then
        checkSpamTrapIndicators env domain username result
      else result
    result
  else result

/-- Step 9 of EnhancedEmailVerifier.verify (src/config/queue.js lines
702-719): derive isValid from the gathered signals and emit the cache write
with the validity-dependent TTL. -/
def aggregateAndCache (opts : VerifyOptions) (email : String)
    (result : VerificationResult) : VerifyOutcome × List CacheWrite :=
  let result := { result with isValid :=
    result.formatValid && result.hasMx && !result.isDisposable
      && (result.smtpCheck || result.details.smtpBlocked.getD false)
      && !result.isSpamTrap }
  (.completed result,
   if opts.cacheResults then
     [⟨"verify:" ++ jsToLower email, result,
       if result.isValid then 86400 else 43200⟩]
   else [])

/-- Steps 2-3 of the parallel block (src/config/queue.js lines 641-650),
whose promise arguments are evaluated in source order: disposable check then
MX lookup. -/
def afterParallel (env : VerifyEnv) (domain : String) (opts : VerifyOptions)
    (result : VerificationResult) : VerificationResult :=
  let result := if opts.checkDisposable then checkDisposableDomain domain result else result
  if opts.checkMx then checkMxRecords env domain opts.useAlternativeDns result else result

/-- Step 5 of the parallel block (src/config/queue.js lines 657-660): the
typo suggestion. -/
def withSuggestion (opts : VerifyOptions) (email : String)
    (result : VerificationResult) : VerificationResult :=
  if opts.checkDomainTypos then { result with suggestion := suggestCorrection email }
  else result

/-- Steps 2-9 of EnhancedEmailVerifier.verify after the syntax gate
(src/config/queue.js lines 641-719): the parallel block evaluated in source
order — disposable check, MX lookup, then the this.checkRoleAccount call,
which raises a TypeError because the class defines no such method (its only
occurrences in src/config/queue.js are option flags and this call), then
typo suggestion — the overall-timeout race, the MX-gated checks, and the
aggregation. -/
def verifyMain (env : VerifyEnv) (email username domain : String)
    (opts : VerifyOptions) (result : VerificationResult) :
    Except String (VerifyOutcome × List CacheWrite) :=
  if opts.checkRoleAccount then
    .error "this.checkRoleAccount is not a function"
  else if env.timeoutFires then
    .error "Verification timeout"
  else
    .ok (aggregateAndCache opts email
      (runMainChecks env email username domain opts
        (withSuggestion opts email (afterParallel env domain opts result))))

/-- Step 1 of EnhancedEmailVerifier.verify (src/config/queue.js lines
626-638): the state of the result record after the optional syntax check,
starting from the fresh record with the punycoded domain stored. -/
def syntaxStage (env : VerifyEnv) (email domain : String) (opts : VerifyOptions) :
    VerificationResult :=
  if opts.checkSyntax then
    performSyntaxCheck env email { email := email, domain := some domain }
  else { email := email, domain := some domain }

/-- The syntax gate of EnhancedEmailVerifier.verify (src/config/queue.js
lines 630-637): a failed format check returns early, cached for 24 hours;
otherwise the pipeline continues in verifyMain. -/
def verifySyntaxGate (env : VerifyEnv) (email username domain : String)
    (opts : VerifyOptions) : Except String (VerifyOutcome × List CacheWrite) :=
  if opts.checkSyntax && !(syntaxStage env email domain opts).formatValid then
    .ok (.syntaxFail (syntaxStage env email domain opts),
         if opts.cacheResults then
           [⟨"verify:" ++ jsToLower email, syntaxStage env email domain opts, 86400⟩]
         else [])
  else
    verifyMain env email username domain opts (syntaxStage env email domain opts)

/-- Embeds the body of EnhancedEmailVerifier.verify (src/config/queue.js
lines 570-719) up to the outer catch: which return fired, plus the list of
verification-result cache writes it performed.  An Except.error is an
exception reaching the outer catch.  The early flow — cache hit, at-sign
split, punycode conversion — is here; the remaining steps are
verifySyntaxGate and verifyMain above.  The early-return records are the
fresh result of lines 572-588 with only the pushed error tag added. -/
def verifyRun (env : VerifyEnv) (email : String) (opts : VerifyOptions) :
    Except String (VerifyOutcome × List CacheWrite) :=
  match (if opts.checkCache then env.cachedResult email else none) with
  | some cachedResult => .ok (.cached { cachedResult with fromCache := true }, [])
  | none =>
    if (jsSplit email '@').length ≠ 2 then
      .ok (.invalidFormat { email := email, errors := ["Invalid email format"] }, [])
    else
      match env.punycodeToAscii (jsToLower (((jsSplit email '@').drop 1).headD "")) with
      | .error _ =>
        .ok (.encodingError { email := email, errors := ["Invalid domain encoding"] }, [])
      | .ok domain =>
        verifySyntaxGate env email ((jsSplit email '@').headD "") domain opts

/-- The result returned by the outer catch of EnhancedEmailVerifier.verify
(src/config/queue.js lines 727-732). -/
def fallbackResult (email msg : String) : VerificationResult :=
  { email := email, isValid := false,
    errors := ["Verification process failed: " ++ msg] }

/-- Embeds EnhancedEmailVerifier.verify: the body's return value, with any
exception converted by the outer catch into the fallback result. -/
def verify (env : VerifyEnv) (email : String) (opts : VerifyOptions) :
    VerificationResult :=
  match verifyRun env email opts with
  | .ok (outcome, _) => outcome.result
  | .error msg => fallbackResult email msg

/-- The verification-result cache writes of one verify call. -/
def verifyWrites (env : VerifyEnv) (email : String) (opts : VerifyOptions) :
    List CacheWrite :=
  match verifyRun env email opts with
  | .ok (_, writes) => writes
  | .error _ => []

/-- The validity formula of spec section 3, written from the spec text for
comparison against the code: is_valid equals format_valid and has_mx and not
is_disposable and (smtp_ok or smtp_blocked_by_policy) and not is_spam_trap. -/
def specIsValid (formatValid hasMx isDisposable smtpOk smtpBlockedByPolicy isSpamTrap : Bool) : Bool :=
  formatValid && hasMx && !isDisposable && (smtpOk || smtpBlockedByPolicy) && !isSpamTrap

/-! ## The advanced verifier (AdvancedEmailVerifier, src/unnamed/part_005). -/

/-- result.details.security of the advanced verifier: for each of spf, dkim
and dmarc, none when the check never stored a record and some b when it
stored one whose nested flag (named exists in the source, a reserved word
here) is b. -/
structure AdvancedSecurityDetails where
  spf : Option Bool := none
  dkim : Option Bool := none
  dmarc : Option Bool := none
deriving DecidableEq

/-- The fields of the advanced verifier's result record read by its
determineValidity and determineLiveness (src/unnamed/part_005 lines 57-81). -/
structure AdvancedResult where
  formatValid : Bool := false
  hasMx : Bool := false
  isDisposable : Bool := false
  isCatchAll : Bool := false
  isRoleAccount : Bool := false
  isSpamTrap : Bool := false
  smtpCheck : Bool := false
  security : AdvancedSecurityDetails := {}
deriving DecidableEq

/-- Embeds AdvancedEmailVerifier.determineValidity (src/unnamed/part_005
lines 571-583): every basic check must be strictly true; the optional-chained
spf?.exists === true is the test against some true. -/
def determineValidity (r : AdvancedResult) : Bool :=
  r.formatValid && r.hasMx && !r.isDisposable
    && (r.security.spf == some true)
    && (r.security.dkim == some true)
    && (r.security.dmarc == some true)

/-- The spec formula applied to an advanced-verifier result: such results
carry no smtpBlocked policy flag, so smtp_blocked_by_policy reads as false. -/
def specIsValidAdvanced (r : AdvancedResult) : Bool :=
  specIsValid r.formatValid r.hasMx r.isDisposable r.smtpCheck false r.isSpamTrap

/-! ## The bulk batch executor (bulkVerificationQueue.process,
src/config/queue.js lines 94-251).  The job record lives in the BatchJob
store (src/models/BatchJob.js): status defaults to queued and the counters
to 0 at submission; the worker mutates it through findOneAndUpdate calls,
which are the observable states of the job record. -/

/-- The BatchJob status values (src/models/BatchJob.js lines 31-35). -/
inductive JobStatus
  | queued
  | processing
  | completed
  | failed
deriving DecidableEq

/-- The environment outcome of one email of the batch loop (lines 119-193):
ok — verify resolved (with the given isValid) and the bookkeeping after it
(progress, log write, periodic flush, sleep) succeeded; okPostThrow —
verify resolved and was counted, then the bookkeeping threw, so the
per-email catch counts the email again as processed and invalid;
fail — verify itself threw before any counting.  In the catch path,
failureLogThrow says the failure-log write (line 180) itself threw, which
escapes the per-email catch and aborts the batch. -/
inductive EmailStep
  | ok (isValid : Bool)
  | okPostThrow (isValid : Bool) (failureLogThrow : Bool)
  | fail (failureLogThrow : Bool)
deriving DecidableEq

/-- The environment of one bulk job: per-email outcomes, whether the
submitter asked to be notified, and whether the notification lookup or send
(lines 208-213) throws. -/
structure BulkEnv where
  steps : List EmailStep
  notifyUser : Bool
  notifyThrow : Bool
deriving DecidableEq

/-- The worker's local counters processed, validCount, invalidCount
(lines 98-100). -/
structure Counters where
  processed : Nat := 0
  valid : Nat := 0
  invalid : Nat := 0
deriving DecidableEq

/-- One findOneAndUpdate payload on the job record: the initial processing
transition (lines 111-117), the every-50 counter flush (lines 157-166), the
completion update (lines 196-205), or the failure update of the outer catch
(lines 237-247). -/
inductive JobWrite
  | start
  | flush (c : Counters)
  | complete (c : Counters)
  | fail (error : String) (c : Counters)
deriving DecidableEq

/-- Counting one verified email (lines 136-144): bump valid or invalid by
the verdict, then bump processed. -/
def countEmail (c : Counters) (isValid : Bool) : Counters :=
  let c := if isValid then { c with valid := c.valid + 1 }
           else { c with invalid := c.invalid + 1 }
  { c with processed := c.processed + 1 }

/-- Counting in the per-email catch (lines 175-177): bump processed and
invalid. -/
def countCatch (c : Counters) : Counters :=
  { c with processed := c.processed + 1, invalid := c.invalid + 1 }

/-- Result of running the email loop: final counters, the flush writes
emitted, and the abort message if an exception escaped the loop. -/
structure RunOutcome where
  counters : Counters
  writes : List JobWrite
  aborted : Option String
deriving DecidableEq

/-- The email loop (lines 119-193): on ok, count and emit the every-50
flush; on okPostThrow, count, then count again in the catch (the flush for
this email is skipped because the throw precedes or is the periodic update);
on fail, count in the catch only.  A throwing failure-log write in the catch
aborts the loop with the thrown message (modelled by a fixed placeholder
message; its text is irrelevant to every claim). -/
def runEmails (c : Counters) : List EmailStep → RunOutcome
  | [] => ⟨c, [], none⟩
  | step :: rest =>
    match step with
    | .ok isValid =>
      let c := countEmail c isValid
      let ws := if c.processed % 50 == 0 then [JobWrite.flush c] else []
      let out := runEmails c rest
      ⟨out.counters, ws ++ out.writes, out.aborted⟩
    | .okPostThrow isValid failureLogThrow =>
      let c := countEmail c isValid
      let c := countCatch c
      if failureLogThrow then ⟨c, [], some "log write failed"⟩
      else runEmails c rest
    | .fail failureLogThrow =>
      let c := countCatch c
      if failureLogThrow then ⟨c, [], some "log write failed"⟩
      else runEmails c rest

/-- The full worker run (lines 94-251) as its sequence of job-record writes:
the processing transition, the loop's flushes, then either the failure
update of the outer catch (when the loop aborted), or the completion update
followed — when a requested notification throws — by the outer catch's
failure update over the same counters. -/
def bulkProcess (env : BulkEnv) : List JobWrite :=
  match (runEmails {} env.steps).aborted with
  | some msg =>
    JobWrite.start :: ((runEmails {} env.steps).writes
      ++ [JobWrite.fail msg (runEmails {} env.steps).counters])
  | none =>
    JobWrite.start :: ((runEmails {} env.steps).writes
      ++ [JobWrite.complete (runEmails {} env.steps).counters]
      ++ (if env.notifyUser && env.notifyThrow then
            [JobWrite.fail "notification failed" (runEmails {} env.steps).counters]
          else []))

/-- The observable job record: status, counters and error as stored in
BatchJob (totalEmails is the submitted email count, carried separately). -/
structure JobState where
  status : JobStatus := .queued
  processedEmails : Nat := 0
  validEmails : Nat := 0
  invalidEmails : Nat := 0
  errorMsg : Option String := none
deriving DecidableEq

/-- Applying one findOneAndUpdate payload to the stored job record. -/
def applyWrite (s : JobState) : JobWrite → JobState
  | .start => { s with status := .processing }
  | .flush c =>
    { s with processedEmails := c.processed, validEmails := c.valid,
             invalidEmails := c.invalid }
  | .complete c =>
    { s with status := .completed, processedEmails := c.processed,
             validEmails := c.valid, invalidEmails := c.invalid }
  | .fail msg c =>
    { s with status := .failed, errorMsg := some msg,
             processedEmails := c.processed, validEmails := c.valid,
             invalidEmails := c.invalid }

/-- Every observable state of the job record over one worker run, beginning
with the freshly submitted record. -/
def observedStates (env : BulkEnv) : List JobState :=
  List.scanl applyWrite {} (bulkProcess env)

/-- The status component of the observable states. -/
def observedStatuses (env : BulkEnv) : List JobStatus :=
  (observedStates env).map JobState.status

/-- One status transition allowed by the claimed monotone order: stay put,
advance queued to processing to completed, or step from a non-terminal
status to failed. -/
def statusStepOk (a b : JobStatus) : Bool :=
  a == b || (a == .queued && b == .processing)
    || (a == .processing && b == .completed)
    || ((a == .queued || a == .processing) && b == .failed)

/-! ## Concrete instances used to exercise the definitions. -/

/-- A benign environment: empty caches, DNS answering one MX record, no
domain block, an IP available, a server that closes the SMTP socket, and no
TXT records. -/
def sampleEnv : VerifyEnv where
  cachedResult := fun _ => none
  punycodeToAscii := fun s => .ok s
  validatorIsEmail := fun _ => true
  cachedMx := fun _ => none
  resolveMx := fun _ => .ok [⟨"mx.example.com", 10⟩]
  altResolveMx := fun _ => .error "queryMx ETIMEOUT"
  domainBlocked := fun _ => .ok false
  acquireIp := fun _ => .ok (some "10.0.0.1")
  smtpEvents := fun _ => [.close]
  resolveTxt := fun _ => .ok []
  randomString := "k3xw9q2z7p"
  timeoutFires := false

/-- Options with the role-account check disabled (the only way the pipeline
reaches its later steps); every other flag keeps its default. -/
def sampleOpts : VerifyOptions := { checkRoleAccount := false }

/-- The completed result of verify in the benign environment. -/
def sampleCompleted : VerificationResult :=
  verify sampleEnv "john@example.com" sampleOpts

/-- The result of verify on an email with consecutive dots (it fails the
syntax check). -/
def sampleSyntaxFail : VerificationResult :=
  verify sampleEnv "a..b@example.com" ({} : VerifyOptions)

/-- The benign environment with the domain's TXT records announcing a spam
trap. -/
def spamTxtEnv : VerifyEnv :=
  { sampleEnv with resolveTxt := fun _ => .ok [["spamtrap"]] }

/-- The benign environment with the rate governor rejecting every acquire
with a minute rate-limit error. -/
def rateLimitedEnv : VerifyEnv :=
  { sampleEnv with acquireIp := fun _ => .error "RATE_LIMIT_MINUTE:example.com" }

/-- The hypothetical limits table of spec scenario 8: the probed domain with
a per-minute limit of 100 (the shipped table has no limit-100 row; the table
is module configuration). -/
def limits100 : List (String × RateLimitConfig) := [("gmail.com", ⟨100, 300⟩)]

/-- A canonical accepting SMTP dialogue: banner, HELO accepted, MAIL FROM
accepted, RCPT TO accepted, each as one 250 response line. -/
def standardAcceptDialogue : List SmtpEvent :=
  [.data "220 mx.example.com ESMTP ready\r\n",
   .data "250 mx.example.com Hello\r\n",
   .data "250 2.1.0 Ok\r\n",
   .data "250 2.1.5 Ok\r\n"]

/-- A one-email bulk batch whose email verifies as valid but whose
verification-log write then throws, with a requested completion
notification that also throws. -/
def postThrowBulkEnv : BulkEnv :=
  { steps := [.okPostThrow true false], notifyUser := true, notifyThrow := true }

/-- A two-email bulk batch with one valid verdict and one verify exception,
and no notification requested. -/
def plainBulkEnv : BulkEnv :=
  { steps := [.ok true, .fail false], notifyUser := false, notifyThrow := false }

/-- An advanced-verifier result reachable at the aggregation step: valid
format, MX present, not disposable, SPF, DKIM and DMARC records found, SMTP
probe negative, spam-trap heuristic positive. -/
def advancedSpamTrapResult : AdvancedResult :=
  { formatValid := true, hasMx := true, isDisposable := false,
    isSpamTrap := true, smtpCheck := false,
    security := { spf := some true, dkim := some true, dmarc := some true } }

/-- Decidable equality for Except values, needed to evaluate run outcomes. -/
instance instDecEqExcept {ε α : Type} [DecidableEq ε] [DecidableEq α] :
    DecidableEq (Except ε α) := fun a b =>
  match a, b with
  | .ok x, .ok y =>
    if h : x = y then .isTrue (by simp [h]) else .isFalse (by simp [h])
  | .ok _, .error _ => .isFalse (by simp)
  | .error _, .ok _ => .isFalse (by simp)
  | .error e, .error f =>
    if h : e = f then .isTrue (by simp [h]) else .isFalse (by simp [h])

/-! ## Helper lemmas -/

/-- performSyntaxCheck leaves formatValid equal to syntaxPasses whenever the
input record has formatValid false (as it always does at the call site). -/
lemma performSyntaxCheck_formatValid (env : VerifyEnv) (email : String)
    (r : VerificationResult) (h : r.formatValid = false) :
    (performSyntaxCheck env email r).formatValid = syntaxPasses env email := by
  unfold performSyntaxCheck syntaxPasses
  cases hv : env.validatorIsEmail email <;> simp [hv, h]

/-- aggregateAndCache always yields a completed outcome whose isValid is the
aggregation formula over its own fields, cached with the validity-dependent
TTL. -/
lemma aggregateAndCache_spec (opts : VerifyOptions) (email : String)
    (r : VerificationResult) :
    ∃ r', aggregateAndCache opts email r
        = (.completed r',
           if opts.cacheResults then
             [⟨"verify:" ++ jsToLower email, r', if r'.isValid then 86400 else 43200⟩]
           else [])
      ∧ r'.isValid = (r'.formatValid && r'.hasMx && !r'.isDisposable
          && (r'.smtpCheck || r'.details.smtpBlocked.getD false) && !r'.isSpamTrap) := by
  refine ⟨{ r with isValid := r.formatValid && r.hasMx && !r.isDisposable
    && (r.smtpCheck || r.details.smtpBlocked.getD false) && !r.isSpamTrap }, ?_, ?_⟩ <;> rfl

/-- Every successful verifyMain run is a completed outcome satisfying the
aggregation formula and the TTL cache-write shape. -/
lemma verifyMain_ok {env : VerifyEnv} {email username domain : String}
    {opts : VerifyOptions} {r : VerificationResult} {out : VerifyOutcome}
    {ws : List CacheWrite}
    (h : verifyMain env email username domain opts r = .ok (out, ws)) :
    ∃ r', out = .completed r'
      ∧ r'.isValid = (r'.formatValid && r'.hasMx && !r'.isDisposable
          && (r'.smtpCheck || r'.details.smtpBlocked.getD false) && !r'.isSpamTrap)
      ∧ ws = (if opts.cacheResults then
               [⟨"verify:" ++ jsToLower email, r', if r'.isValid then 86400 else 43200⟩]
             else []) := by
  unfold verifyMain at h
  split at h
  · exact Except.noConfusion h
  · split at h
    · exact Except.noConfusion h
    · injection h with h1
      obtain ⟨r', heq, hval⟩ := aggregateAndCache_spec opts email _
      rw [heq] at h1
      injection h1 with hout hws
      exact ⟨r', hout.symm, hval, hws.symm⟩

/-- Every successful run of the syntax gate is either an early syntax
failure cached for 24 hours, or a completed aggregation. -/
lemma verifySyntaxGate_ok {env : VerifyEnv} {email username domain : String}
    {opts : VerifyOptions} {out : VerifyOutcome} {ws : List CacheWrite}
    (h : verifySyntaxGate env email username domain opts = .ok (out, ws)) :
    (∃ r', out = .syntaxFail r' ∧ r'.formatValid = false
       ∧ ws = (if opts.cacheResults then
                [⟨"verify:" ++ jsToLower email, r', 86400⟩]
              else [])) ∨
    (∃ r', out = .completed r'
       ∧ r'.isValid = (r'.formatValid && r'.hasMx && !r'.isDisposable
           && (r'.smtpCheck || r'.details.smtpBlocked.getD false) && !r'.isSpamTrap)
       ∧ ws = (if opts.cacheResults then
                [⟨"verify:" ++ jsToLower email, r', if r'.isValid then 86400 else 43200⟩]
              else [])) := by
  unfold verifySyntaxGate at h
  split at h
  · rename_i hgate
    left
    injection h with h1
    injection h1 with hout hws
    refine ⟨syntaxStage env email domain opts, hout.symm, ?_, hws.symm⟩
    have h2 := (Bool.and_eq_true _ _).mp hgate
    simpa using h2.2
  · right
    exact verifyMain_ok h

/-- Control-flow inversion of verifyRun: what each successful outcome says
about the result and the cache writes. -/
lemma verifyRun_ok_cases (env : VerifyEnv) (email : String) (opts : VerifyOptions)
    (out : VerifyOutcome) (ws : List CacheWrite)
    (h : verifyRun env email opts = .ok (out, ws)) :
    (∀ r, out = .completed r →
       r.isValid = (r.formatValid && r.hasMx && !r.isDisposable
         && (r.smtpCheck || r.details.smtpBlocked.getD false) && !r.isSpamTrap) ∧
       ws = (if opts.cacheResults then
               [⟨"verify:" ++ jsToLower email, r, if r.isValid then 86400 else 43200⟩]
             else [])) ∧
    (∀ r, out = .syntaxFail r →
       r.formatValid = false ∧
       ws = (if opts.cacheResults then
               [⟨"verify:" ++ jsToLower email, r, 86400⟩]
             else [])) ∧
    (∀ r, out = .cached r → ws = []) ∧
    (∀ r, out = .invalidFormat r → ws = []) ∧
    (∀ r, out = .encodingError r → ws = []) := by
  unfold verifyRun at h
  split at h
  · -- cache hit
    injection h with h1
    injection h1 with hout hws
    subst hout; subst hws
    refine ⟨?_, ?_, ?_, ?_, ?_⟩ <;> intro r hr
    · exact VerifyOutcome.noConfusion hr
    · exact VerifyOutcome.noConfusion hr
    · rfl
    · exact VerifyOutcome.noConfusion hr
    · exact VerifyOutcome.noConfusion hr
  · split at h
    · -- no at-sign split
      injection h with h1
      injection h1 with hout hws
      subst hout; subst hws
      refine ⟨?_, ?_, ?_, ?_, ?_⟩ <;> intro r hr
      · exact VerifyOutcome.noConfusion hr
      · exact VerifyOutcome.noConfusion hr
      · exact VerifyOutcome.noConfusion hr
      · rfl
      · exact VerifyOutcome.noConfusion hr
    · split at h
      · -- punycode failure
        injection h with h1
        injection h1 with hout hws
        subst hout; subst hws
        refine ⟨?_, ?_, ?_, ?_, ?_⟩ <;> intro r hr
        · exact VerifyOutcome.noConfusion hr
        · exact VerifyOutcome.noConfusion hr
        · exact VerifyOutcome.noConfusion hr
        · exact VerifyOutcome.noConfusion hr
        · rfl
      · -- the gate and the main pipeline
        rcases verifySyntaxGate_ok h with ⟨r', hout, hfv, hws⟩ | ⟨r', hout, hval, hws⟩ <;>
          subst hout <;> refine ⟨?_, ?_, ?_, ?_, ?_⟩ <;> intro r hr
        · exact VerifyOutcome.noConfusion hr
        · injection hr with hr1
          subst hr1
          exact ⟨hfv, hws⟩
        · exact VerifyOutcome.noConfusion hr
        · exact VerifyOutcome.noConfusion hr
        · exact VerifyOutcome.noConfusion hr
        · injection hr with hr1
          subst hr1
          exact ⟨hval, hws⟩
        · exact VerifyOutcome.noConfusion hr
        · exact VerifyOutcome.noConfusion hr
        · exact VerifyOutcome.noConfusion hr
        · exact VerifyOutcome.noConfusion hr

/-- Claim C1, amended part: every run of EnhancedEmailVerifier.verify that
reaches the aggregation step returns a result whose isValid equals the spec
formula format_valid and has_mx and not is_disposable and (smtp_ok or
smtp_blocked_by_policy) and not is_spam_trap, smtp_blocked_by_policy being
the details.smtpBlocked flag. -/
theorem C1_enhanced_aggregation (env : VerifyEnv) (email : String)
    (opts : VerifyOptions) (r : VerificationResult) (ws : List CacheWrite)
    (h : verifyRun env email opts = .ok (.completed r, ws)) :
    r.isValid = specIsValid r.formatValid r.hasMx r.isDisposable r.smtpCheck
      (r.details.smtpBlocked.getD false) r.isSpamTrap := by
  have hc := (verifyRun_ok_cases env email opts _ _ h).1 r rfl
  simpa [specIsValid] using hc.1

/-- Witness for C1_enhanced_aggregation at a concrete completing run. -/
theorem C1_enhanced_aggregation_witness :
    verifyRun sampleEnv "john@example.com" sampleOpts
      = .ok (.completed sampleCompleted,
             [⟨"verify:john@example.com", sampleCompleted, 43200⟩]) ∧
    sampleCompleted.isValid = specIsValid sampleCompleted.formatValid
      sampleCompleted.hasMx sampleCompleted.isDisposable sampleCompleted.smtpCheck
      (sampleCompleted.details.smtpBlocked.getD false) sampleCompleted.isSpamTrap :=
  ⟨by decide,
   C1_enhanced_aggregation sampleEnv "john@example.com" sampleOpts sampleCompleted
     [⟨"verify:john@example.com", sampleCompleted, 43200⟩] (by decide)⟩

/-- Counterexample to C1 as stated: the advanced verifier's aggregation
(AdvancedEmailVerifier.determineValidity, cited by the claim) accepts a
result that the claimed formula rejects — SPF, DKIM and DMARC present but
the SMTP probe negative, no blocking policy, and the spam-trap heuristic
positive. -/
theorem C1_counterexample :
    determineValidity advancedSpamTrapResult = true ∧
    specIsValidAdvanced advancedSpamTrapResult = false := by
  decide

/-- Claim C2: verify is total — it always returns a result record — and any
exception escaping the pipeline body is converted by the outer catch into a
returned fallback result with isValid false and a process-failure tag in
errors. -/
theorem C2_verify_total (env : VerifyEnv) (email : String) (opts : VerifyOptions) :
    (∃ r : VerificationResult, verify env email opts = r) ∧
    (∀ msg, verifyRun env email opts = .error msg →
       verify env email opts = fallbackResult email msg ∧
       (verify env email opts).isValid = false ∧
       ("Verification process failed: " ++ msg) ∈ (verify env email opts).errors) := by
  refine ⟨⟨verify env email opts, rfl⟩, ?_⟩
  intro msg h
  unfold verify
  rw [h]
  exact ⟨rfl, rfl, by simp [fallbackResult]⟩

/-- Witness for C2_verify_total at a run whose body raises (the default
options call the missing checkRoleAccount method). -/
theorem C2_verify_total_witness :
    verifyRun sampleEnv "john@example.com" ({} : VerifyOptions)
      = .error "this.checkRoleAccount is not a function" ∧
    verify sampleEnv "john@example.com" ({} : VerifyOptions)
      = fallbackResult "john@example.com" "this.checkRoleAccount is not a function" ∧
    (verify sampleEnv "john@example.com" ({} : VerifyOptions)).isValid = false ∧
    ("Verification process failed: this.checkRoleAccount is not a function")
      ∈ (verify sampleEnv "john@example.com" ({} : VerifyOptions)).errors :=
  ⟨by decide,
   (C2_verify_total sampleEnv "john@example.com" ({} : VerifyOptions)).2
     "this.checkRoleAccount is not a function" (by decide)⟩

/-- Claim C3: with checkRoleAccount enabled (its default), any verify call
that misses the cache, splits on the at-sign, converts the domain and passes
the syntax gate raises at the this.checkRoleAccount call — the class defines
no such method — and the outer catch returns the fallback failure result;
the MX gate, SMTP, catch-all, spam-trap and aggregation steps are never
reached and nothing is cached. -/
theorem C3_missing_role_account (env : VerifyEnv) (email pdomain : String)
    (opts : VerifyOptions)
    (hrole : opts.checkRoleAccount = true)
    (hcache : (if opts.checkCache then env.cachedResult email else none) = none)
    (hsplit : (jsSplit email '@').length = 2)
    (hpuny : env.punycodeToAscii (jsToLower (((jsSplit email '@').drop 1).headD ""))
      = .ok pdomain)
    (hsyn : opts.checkSyntax = true → syntaxPasses env email = true) :
    verifyRun env email opts = .error "this.checkRoleAccount is not a function" ∧
    verify env email opts
      = fallbackResult email "this.checkRoleAccount is not a function" ∧
    (verify env email opts).isValid = false ∧
    ("Verification process failed: this.checkRoleAccount is not a function")
      ∈ (verify env email opts).errors ∧
    verifyWrites env email opts = [] := by
  have hfv : (syntaxStage env email pdomain opts).formatValid
      = (if opts.checkSyntax then syntaxPasses env email else false) := by
    unfold syntaxStage
    split
    · exact performSyntaxCheck_formatValid env email _ rfl
    · rfl
  have hgate : (opts.checkSyntax && !(syntaxStage env email pdomain opts).formatValid)
      = false := by
    cases hcs : opts.checkSyntax
    · simp
    · simp [hfv, hcs, hsyn hcs]
  have hrun : verifyRun env email opts
      = .error "this.checkRoleAccount is not a function" := by
    unfold verifyRun
    rw [hcache]
    simp only [hsplit, hpuny]
    have : ¬((2 : Nat) ≠ 2) := by simp
    rw [if_neg this]
    unfold verifySyntaxGate
    rw [if_neg (by simp [hgate])]
    unfold verifyMain
    rw [if_pos hrole]
  refine ⟨hrun, ?_, ?_, ?_, ?_⟩
  · unfold verify
    rw [hrun]
  · unfold verify
    rw [hrun]
    rfl
  · unfold verify
    rw [hrun]
    simp [fallbackResult]
  · unfold verifyWrites
    rw [hrun]

/-- Witness for C3_missing_role_account on a concrete well-formed email in
the benign environment with default options. -/
theorem C3_missing_role_account_witness :
    verifyRun sampleEnv "john@example.com" ({} : VerifyOptions)
      = .error "this.checkRoleAccount is not a function" ∧
    verify sampleEnv "john@example.com" ({} : VerifyOptions)
      = fallbackResult "john@example.com" "this.checkRoleAccount is not a function" ∧
    (verify sampleEnv "john@example.com" ({} : VerifyOptions)).isValid = false ∧
    ("Verification process failed: this.checkRoleAccount is not a function")
      ∈ (verify sampleEnv "john@example.com" ({} : VerifyOptions)).errors ∧
    verifyWrites sampleEnv "john@example.com" ({} : VerifyOptions) = [] :=
  C3_missing_role_account sampleEnv "john@example.com" "example.com"
    ({} : VerifyOptions) (by decide) (by decide) (by decide) (by decide)
    (fun _ => by decide)

/-- Claim C8, amended part: a completed aggregation is cached with a 24-hour
TTL when valid and a 12-hour TTL when invalid, a syntax failure is cached
with a 24-hour TTL regardless of validity, and the other early returns cache
nothing. -/
theorem C8_cache_ttl (env : VerifyEnv) (email : String) (opts : VerifyOptions)
    (out : VerifyOutcome) (ws : List CacheWrite)
    (h : verifyRun env email opts = .ok (out, ws)) :
    (∀ r, out = .completed r →
       ws = (if opts.cacheResults then
               [⟨"verify:" ++ jsToLower email, r, if r.isValid then 86400 else 43200⟩]
             else [])) ∧
    (∀ r, out = .syntaxFail r →
       r.formatValid = false ∧
       ws = (if opts.cacheResults then
               [⟨"verify:" ++ jsToLower email, r, 86400⟩]
             else [])) ∧
    (∀ r, out = .cached r → ws = []) ∧
    (∀ r, out = .invalidFormat r → ws = []) ∧
    (∀ r, out = .encodingError r → ws = []) := by
  have hc := verifyRun_ok_cases env email opts out ws h
  exact ⟨fun r hr => (hc.1 r hr).2, hc.2.1, hc.2.2.1, hc.2.2.2.1, hc.2.2.2.2⟩

/-- Counterexample to C8 as stated: an email failing the syntax check is
cached for 86400 seconds (24 hours) although its result is not valid; the
claim requires a 12-hour TTL for every invalid result. -/
theorem C8_counterexample :
    verifyWrites sampleEnv "a..b@example.com" ({} : VerifyOptions)
      = [⟨"verify:a..b@example.com", sampleSyntaxFail, 86400⟩] ∧
    sampleSyntaxFail.isValid = false := by
  decide

/-- Witness for C8_cache_ttl at a concrete completing run. -/
theorem C8_cache_ttl_witness :
    verifyRun sampleEnv "john@example.com" sampleOpts
      = .ok (.completed sampleCompleted,
             [⟨"verify:john@example.com", sampleCompleted, 43200⟩]) ∧
    [(⟨"verify:john@example.com", sampleCompleted, 43200⟩ : CacheWrite)]
      = (if sampleOpts.cacheResults then
           [⟨"verify:" ++ jsToLower "john@example.com", sampleCompleted,
             if sampleCompleted.isValid then 86400 else 43200⟩]
         else []) :=
  ⟨by decide,
   (C8_cache_ttl sampleEnv "john@example.com" sampleOpts
      (.completed sampleCompleted)
      [⟨"verify:john@example.com", sampleCompleted, 43200⟩] (by decide)).1
     sampleCompleted rfl⟩

/-- Claim C10: when the rate governor rejects the acquire with an error
message, performSmtpCheck records the error and sets smtpCheck exactly when
the message begins with RATE_LIMIT — so a rate-limited address counts as
SMTP-verified: in any completed aggregation with smtpCheck true, isValid
reduces to the remaining conjuncts. -/
theorem C10_rate_limit_counts_valid :
    (∀ (env : VerifyEnv) (domain email : String) (r : VerificationResult) (msg : String),
       env.acquireIp domain = .error msg →
       (performSmtpCheck env domain email r).smtpCheck = jsStartsWith msg "RATE_LIMIT" ∧
       ("SMTP check error: " ++ msg) ∈ (performSmtpCheck env domain email r).errors) ∧
    (∀ (env : VerifyEnv) (email : String) (opts : VerifyOptions)
       (r : VerificationResult) (ws : List CacheWrite),
       verifyRun env email opts = .ok (.completed r, ws) → r.smtpCheck = true →
       r.isValid = (r.formatValid && r.hasMx && !r.isDisposable && !r.isSpamTrap)) := by
  constructor
  · intro env domain email r msg hacq
    unfold performSmtpCheck
    rw [hacq]
    cases hs : jsStartsWith msg "RATE_LIMIT" <;> simp [hs]
  · intro env email opts r ws h hsm
    have hc := ((verifyRun_ok_cases env email opts _ _ h).1 r rfl).1
    rw [hc, hsm]
    simp

/-- Witness for C10_rate_limit_counts_valid at a concrete rate-limited
acquire. -/
theorem C10_rate_limit_counts_valid_witness :
    (performSmtpCheck rateLimitedEnv "example.com" "j@example.com"
       { email := "j@example.com" }).smtpCheck
      = jsStartsWith "RATE_LIMIT_MINUTE:example.com" "RATE_LIMIT" ∧
    ("SMTP check error: RATE_LIMIT_MINUTE:example.com")
      ∈ (performSmtpCheck rateLimitedEnv "example.com" "j@example.com"
          { email := "j@example.com" }).errors :=
  C10_rate_limit_counts_valid.1 rateLimitedEnv "example.com" "j@example.com"
    { email := "j@example.com" } "RATE_LIMIT_MINUTE:example.com" (by decide)

/-- Claim C4, amended part: is_spam_trap is exactly the random-username test
— in every environment, including any TXT answer or TXT error, so the TXT
heuristic cannot affect it (it is conjoined with the hardcoded-false
new-domain placeholder) and TXT failures are non-fatal — while the computed
TXT indicator is only stored in details, and the spam-trap error tag is
appended exactly when the flag is set. -/
theorem C4_spam_trap_heuristic (env : VerifyEnv) (domain username : String)
    (r : VerificationResult) :
    (checkSpamTrapIndicators env domain username r).isSpamTrap
      = isRandomUsername username ∧
    (checkSpamTrapIndicators env domain username r).errors
      = r.errors ++ (if isRandomUsername username then
                       ["Email matches spam trap patterns"]
                     else []) ∧
    (checkSpamTrapIndicators env domain username r).details.spamTrapIndicators
      = some ⟨isRandomUsername username, false, hasSuspiciousTxt env domain⟩ := by
  unfold checkSpamTrapIndicators
  cases hir : isRandomUsername username <;> simp [hir]

/-- Counterexample to C4 as stated: a domain whose TXT records match the
spam pattern (the stored indicator is true) with a local part failing the
random test is still reported as not a spam trap, against the claimed
if-and-only-if. -/
theorem C4_counterexample :
    (checkSpamTrapIndicators spamTxtEnv "trapdomain.example" "info"
       { email := "info@trapdomain.example" }).isSpamTrap = false ∧
    (checkSpamTrapIndicators spamTxtEnv "trapdomain.example" "info"
       { email := "info@trapdomain.example" }).details.spamTrapIndicators
      = some ⟨false, false, true⟩ := by
  decide

/-- Claim C5: the governor fails with the minute error when the minute
counter has reached its limit, with the hour error when only the hour
counter has; otherwise it increments both counters, returns the pool entry
at the persisted index and advances the index modulo the pool size; and 101
sequential acquires under a minute limit of 100 see the first 100 succeed
and the 101st fail with the minute error. -/
theorem C5_rate_governor :
    (∀ (limits : List (String × RateLimitConfig)) (dflt : RateLimitConfig)
       (pool : List String) (st : GovernorState) (domain : String),
       (getRateLimit limits dflt (jsToLower domain)).maxPerMinute ≤ st.minuteCount →
       getNextIp limits dflt pool st domain
         = (.error ("RATE_LIMIT_MINUTE:" ++ domain), st)) ∧
    (∀ (limits : List (String × RateLimitConfig)) (dflt : RateLimitConfig)
       (pool : List String) (st : GovernorState) (domain : String),
       st.minuteCount < (getRateLimit limits dflt (jsToLower domain)).maxPerMinute →
       (getRateLimit limits dflt (jsToLower domain)).maxPerHour ≤ st.hourCount →
       getNextIp limits dflt pool st domain
         = (.error ("RATE_LIMIT_HOUR:" ++ domain), st)) ∧
    (∀ (limits : List (String × RateLimitConfig)) (dflt : RateLimitConfig)
       (pool : List String) (st : GovernorState) (domain : String),
       st.minuteCount < (getRateLimit limits dflt (jsToLower domain)).maxPerMinute →
       st.hourCount < (getRateLimit limits dflt (jsToLower domain)).maxPerHour →
       getNextIp limits dflt pool st domain
         = (.ok (pool.get? st.ipIndex),
            ⟨st.minuteCount + 1, st.hourCount + 1, (st.ipIndex + 1) % pool.length⟩)) ∧
    ((List.range 100).all (fun k =>
        match acquireResult limits100 defaultRateLimit ["default"] "gmail.com" k with
        | .ok _ => true
        | .error _ => false) = true ∧
     acquireResult limits100 defaultRateLimit ["default"] "gmail.com" 100
       = .error "RATE_LIMIT_MINUTE:gmail.com") := by
  refine ⟨?_, ?_, ?_, by decide, by decide⟩
  · intro limits dflt pool st domain h
    simp [getNextIp, h]
  · intro limits dflt pool st domain h1 h2
    simp [getNextIp, Nat.not_le.mpr h1, h2]
  · intro limits dflt pool st domain h1 h2
    simp [getNextIp, Nat.not_le.mpr h1, Nat.not_le.mpr h2]

/-- Witness for C5_rate_governor: the shipped table caps gmail.com at 20 per
minute, so an acquire with the minute counter at 20 fails with the minute
error. -/
theorem C5_rate_governor_witness :
    (getRateLimit domainRateLimits defaultRateLimit (jsToLower "gmail.com")).maxPerMinute
      ≤ (⟨20, 0, 0⟩ : GovernorState).minuteCount ∧
    getNextIp domainRateLimits defaultRateLimit ["default"] ⟨20, 0, 0⟩ "gmail.com"
      = (.error ("RATE_LIMIT_MINUTE:" ++ "gmail.com"), ⟨20, 0, 0⟩) :=
  ⟨by decide,
   C5_rate_governor.1 domainRateLimits defaultRateLimit ["default"] ⟨20, 0, 0⟩
     "gmail.com" (by decide)⟩

/-- The data handler can never set smtpCheck: the accept branch requires the
buffer to contain 250 while the two preceding branches already cover every
buffer containing 250, so it is unreachable; every other branch records
false. -/
lemma onData_smtpCheck_false (st : ProbeState) (chunk : String)
    (h : st.smtpCheck = false) : ((onData st chunk).1).smtpCheck = false := by
  simp only [onData]
  repeat' split
  all_goals simp_all

/-- No socket event can set smtpCheck. -/
lemma onEvent_smtpCheck_false (st : ProbeState) (e : SmtpEvent)
    (h : st.smtpCheck = false) : ((onEvent st e).1).smtpCheck = false := by
  cases e
  case data chunk => exact onData_smtpCheck_false st chunk h
  all_goals (simp only [onEvent]; split <;> simp_all)

/-- Folding any event sequence preserves a false smtpCheck. -/
lemma foldProbe_smtpCheck_false :
    ∀ (events : List SmtpEvent) (st : ProbeState), st.smtpCheck = false →
      (events.foldl (fun s e => (onEvent s e).1) st).smtpCheck = false
  | [], _, h => h
  | e :: es, st, h =>
    foldProbe_smtpCheck_false es ((onEvent st e).1) (onEvent_smtpCheck_false st e h)

/-- Claim C6 (code bug): the probe can never record smtp_ok true for any
sequence of socket events — the accept branch of the data handler is dead
because its two predecessors exhaust every buffer containing 250, and once
the 220 banner is in the cumulative buffer the first branch re-fires forever
— and in particular the canonical accepting dialogue of four response lines
ends at the 15 s global timeout with smtp_ok false. -/
theorem C6_probe_never_accepts :
    (∀ events : List SmtpEvent, (probeOutcome events).smtpCheck = false) ∧
    (probeOutcome standardAcceptDialogue).smtpCheck = false ∧
    (probeOutcome standardAcceptDialogue).errors = ["SMTP check timed out"] ∧
    (probeOutcome standardAcceptDialogue).failureReason = some "global_timeout" := by
  refine ⟨?_, by decide, by decide, by decide⟩
  intro events
  have hr : (runProbe events).smtpCheck = false :=
    foldProbe_smtpCheck_false events {} rfl
  simp only [probeOutcome]
  split
  · exact hr
  · rfl

/-- Any scan answer is a table key within Levenshtein distance 2. -/
lemma scanCommonDomains_sound :
    ∀ (L : List (String × List String)) (d k : String),
      scanCommonDomains d L = some k →
      levenshteinDistance d k ≤ 2 ∧ k ∈ L.map Prod.fst := by
  intro L
  induction L with
  | nil => intro d k h; exact absurd h (by simp [scanCommonDomains])
  | cons p rest ih =>
    obtain ⟨c, v⟩ := p
    intro d k h
    simp only [scanCommonDomains] at h
    split at h
    · exact Option.noConfusion h
    · split at h
      · rename_i hdist
        injection h with hk
        subst hk
        exact ⟨hdist, by simp⟩
      · have := ih d k h
        exact ⟨this.1, by simpa using Or.inr (by simpa using this.2)⟩

/-- Claim C9, amended part: a domain in the hard-coded correction map is
corrected to its mapped value; any suggestion the table scan produces is a
table key within Levenshtein distance 2 of the domain (the scan takes the
first such key in declaration order, not the nearest); and both verifiers
map a@gmal.com to a@gmail.com. -/
theorem C9_suggestion :
    (∀ (e u d c : String), jsSplit e '@' = [u, d] → correctionsLookup d = some c →
       suggestCorrection e = some (u ++ "@" ++ c)) ∧
    (∀ (d k : String), scanCommonDomains d commonDomains = some k →
       levenshteinDistance d k ≤ 2 ∧ k ∈ commonDomains.map Prod.fst) ∧
    suggestCorrection "a@gmal.com" = some "a@gmail.com" ∧
    basicSuggestCorrection "a@gmal.com" = some "a@gmail.com" := by
  refine ⟨?_, fun d k h => scanCommonDomains_sound commonDomains d k h,
    by decide, by decide⟩
  intro e u d c hsplit hlook
  simp only [suggestCorrection, hsplit, hlook]

/-- Counterexample to C9 as stated: mail.com is itself a table entry, so the
minimum table distance is 0 and the claim demands no suggestion, yet the
scan stops at gmail.com (distance 1, earlier in the table) and rewrites the
address. -/
theorem C9_counterexample :
    suggestCorrection "u@mail.com" = some "u@gmail.com" ∧
    (commonDomains.map Prod.fst).contains "mail.com" = true ∧
    levenshteinDistance "mail.com" "mail.com" = 0 := by
  decide

/-- Witness for C9_suggestion: the hard-coded correction and the scan bound
at concrete inputs. -/
theorem C9_suggestion_witness :
    suggestCorrection "a@gmal.com" = some ("a" ++ "@" ++ "gmail.com") ∧
    (levenshteinDistance "gmal.com" "gmail.com" ≤ 2 ∧
     "gmail.com" ∈ commonDomains.map Prod.fst) :=
  ⟨C9_suggestion.1 "a@gmal.com" "a" "gmal.com" "gmail.com" (by decide) (by decide),
   C9_suggestion.2.1 "gmal.com" "gmail.com" (by decide)⟩

/-- Counting an email preserves the counter sum invariant. -/
lemma countEmail_sum {c : Counters} (v : Bool) (h : c.valid + c.invalid = c.processed) :
    (countEmail c v).valid + (countEmail c v).invalid = (countEmail c v).processed := by
  cases v <;> simp [countEmail] <;> omega

/-- Counting in the catch preserves the counter sum invariant. -/
lemma countCatch_sum {c : Counters} (h : c.valid + c.invalid = c.processed) :
    (countCatch c).valid + (countCatch c).invalid = (countCatch c).processed := by
  simp [countCatch]
  omega

/-- The loop counters and every flushed counter respect the sum invariant. -/
lemma runEmails_sum : ∀ (steps : List EmailStep) (c : Counters),
    c.valid + c.invalid = c.processed →
    ((runEmails c steps).counters.valid + (runEmails c steps).counters.invalid
      = (runEmails c steps).counters.processed) ∧
    (∀ cc, JobWrite.flush cc ∈ (runEmails c steps).writes →
      cc.valid + cc.invalid = cc.processed) := by
  intro steps
  induction steps with
  | nil =>
    intro c h
    refine ⟨h, ?_⟩
    intro cc hcc
    simp [runEmails] at hcc
  | cons s rest ih =>
    intro c h
    cases s with
    | ok isValid =>
      have h1 := countEmail_sum isValid h
      have hrest := ih (countEmail c isValid) h1
      refine ⟨by simpa [runEmails] using hrest.1, ?_⟩
      intro cc hcc
      simp only [runEmails] at hcc
      rcases List.mem_append.mp hcc with hl | hr
      · split at hl
        · simp at hl
          rw [hl]
          exact h1
        · simp at hl
      · exact hrest.2 cc hr
    | okPostThrow isValid flt =>
      have h2 := countCatch_sum (countEmail_sum isValid h)
      cases flt
      · have hrest := ih (countCatch (countEmail c isValid)) h2
        refine ⟨by simpa [runEmails] using hrest.1, ?_⟩
        intro cc hcc
        simp only [runEmails] at hcc
        simp at hcc
        exact hrest.2 cc hcc
      · refine ⟨by simpa [runEmails] using h2, ?_⟩
        intro cc hcc
        simp [runEmails] at hcc
    | fail flt =>
      have h2 := countCatch_sum h
      cases flt
      · have hrest := ih (countCatch c) h2
        refine ⟨by simpa [runEmails] using hrest.1, ?_⟩
        intro cc hcc
        simp only [runEmails] at hcc
        simp at hcc
        exact hrest.2 cc hcc
      · refine ⟨by simpa [runEmails] using h2, ?_⟩
        intro cc hcc
        simp [runEmails] at hcc

/-- Every write the loop emits is a counter flush. -/
lemma runEmails_writes_flush : ∀ (steps : List EmailStep) (c : Counters) (w : JobWrite),
    w ∈ (runEmails c steps).writes → ∃ cc, w = .flush cc := by
  intro steps
  induction steps with
  | nil =>
    intro c w hw
    simp [runEmails] at hw
  | cons s rest ih =>
    intro c w hw
    cases s with
    | ok isValid =>
      simp only [runEmails] at hw
      rcases List.mem_append.mp hw with hl | hr
      · split at hl
        · simp at hl
          exact ⟨_, hl⟩
        · simp at hl
      · exact ih _ w hr
    | okPostThrow isValid flt =>
      cases flt
      · simp only [runEmails] at hw
        simp at hw
        exact ih _ w hw
      · simp [runEmails] at hw
    | fail flt =>
      cases flt
      · simp only [runEmails] at hw
        simp at hw
        exact ih _ w hw
      · simp [runEmails] at hw

/-- Without post-count bookkeeping failures, the loop counts each email at
most once: final and flushed processed counters stay within the number of
emails. -/
lemma runEmails_bound : ∀ (steps : List EmailStep) (c : Counters),
    (∀ s ∈ steps, ∀ v b, s ≠ EmailStep.okPostThrow v b) →
    ((runEmails c steps).counters.processed ≤ c.processed + steps.length) ∧
    (∀ cc, JobWrite.flush cc ∈ (runEmails c steps).writes →
      cc.processed ≤ c.processed + steps.length) := by
  intro steps
  induction steps with
  | nil =>
    intro c _
    refine ⟨by simp [runEmails], ?_⟩
    intro cc hcc
    simp [runEmails] at hcc
  | cons s rest ih =>
    intro c hno
    have hnorest : ∀ s ∈ rest, ∀ v b, s ≠ EmailStep.okPostThrow v b :=
      fun s hs => hno s (List.mem_cons_of_mem _ hs)
    cases s with
    | ok isValid =>
      have hce : (countEmail c isValid).processed = c.processed + 1 := by
        cases isValid <;> simp [countEmail]
      have hrest := ih (countEmail c isValid) hnorest
      constructor
      · have h1 := hrest.1
        rw [hce] at h1
        simp only [runEmails]
        simp only [List.length_cons]
        omega
      · intro cc hcc
        simp only [runEmails] at hcc
        rcases List.mem_append.mp hcc with hl | hr
        · split at hl
          · simp at hl
            rw [hl, hce]
            simp
          · simp at hl
        · have h2 := hrest.2 cc hr
          rw [hce] at h2
          simp only [List.length_cons]
          omega
    | okPostThrow isValid flt =>
      exact absurd rfl (hno _ (List.mem_cons_self _ _) isValid flt)
    | fail flt =>
      have hcp : (countCatch c).processed = c.processed + 1 := by simp [countCatch]
      have hrwF : runEmails c (EmailStep.fail false :: rest) = runEmails (countCatch c) rest := by
        simp [runEmails]
      have hrwT : runEmails c (EmailStep.fail true :: rest)
          = ⟨countCatch c, [], some "log write failed"⟩ := by
        simp [runEmails]
      cases flt
      · have hrest := ih (countCatch c) hnorest
        constructor
        · have h1 := hrest.1
          rw [hcp] at h1
          rw [hrwF]
          simp only [List.length_cons]
          omega
        · intro cc hcc
          rw [hrwF] at hcc
          have h2 := hrest.2 cc hcc
          rw [hcp] at h2
          simp only [List.length_cons]
          omega
      · constructor
        · rw [hrwT]
          simp [hcp]
        · intro cc hcc
          rw [hrwT] at hcc
          simp at hcc

/-- A predicate preserved by every listed write holds at every scanned
state. -/
lemma scanl_pred (P : JobState → Prop) : ∀ (ws : List JobWrite) (s : JobState),
    P s → (∀ (s' : JobState) (w : JobWrite), w ∈ ws → P s' → P (applyWrite s' w)) →
    ∀ x ∈ List.scanl applyWrite s ws, P x := by
  intro ws
  induction ws with
  | nil =>
    intro s hs _ x hx
    simp [List.scanl] at hx
    rw [hx]
    exact hs
  | cons w ws ih =>
    intro s hs hstep x hx
    rw [List.scanl_cons] at hx
    rcases List.mem_cons.mp hx with rfl | hx'
    · exact hs
    · exact ih (applyWrite s w) (hstep s w (List.mem_cons_self _ _) hs)
        (fun s' w' hw' => hstep s' w' (List.mem_cons_of_mem _ hw')) x hx'

/-- Scanning flush writes keeps the status, so the statuses of a flush run
followed by one terminal write are a constant block and the terminal
status. -/
lemma statuses_flushes_terminal : ∀ (ws : List JobWrite) (s : JobState)
    (t : JobWrite) (st : JobStatus),
    (∀ w ∈ ws, ∃ cc, w = .flush cc) →
    (∀ s' : JobState, (applyWrite s' t).status = st) →
    (List.scanl applyWrite s (ws ++ [t])).map JobState.status
      = List.replicate (ws.length + 1) s.status ++ [st] := by
  intro ws
  induction ws with
  | nil =>
    intro s t st _ hterm
    simp [List.scanl, hterm]
  | cons w ws ih =>
    intro s t st hfl hterm
    obtain ⟨cc, rfl⟩ := hfl w (List.mem_cons_self _ _)
    rw [List.cons_append, List.scanl_cons, List.singleton_append]
    have hstat : (applyWrite s (JobWrite.flush cc)).status = s.status := rfl
    have hrec := ih (applyWrite s (JobWrite.flush cc)) t st
      (fun w' hw' => hfl w' (List.mem_cons_of_mem _ hw')) hterm
    rw [List.map_cons, hrec, hstat, List.length_cons, List.replicate_succ]
    simp [List.replicate_succ]

/-- A queued-processing block followed by one terminal status satisfies the
claimed monotone transition relation. -/
lemma chain_shape (t : JobStatus) (ht : t = .completed ∨ t = .failed) :
    ∀ n : Nat, List.Chain' (fun a b => statusStepOk a b = true)
      (.queued :: .processing :: (List.replicate n .processing ++ [t])) := by
  intro n
  induction n with
  | zero =>
    rcases ht with rfl | rfl <;>
      exact List.chain'_cons.mpr ⟨by decide,
        List.chain'_cons.mpr ⟨by decide, List.chain'_singleton _⟩⟩
  | succ n ih =>
    rw [List.replicate_succ, List.cons_append]
    have h1 := List.chain'_cons.mp ih
    exact List.chain'_cons.mpr ⟨by decide, List.chain'_cons.mpr ⟨by decide, h1.2⟩⟩

/-- Claim C7, amended part: at every observable state of the job record,
valid plus invalid equals processed; and provided no per-email bookkeeping
failure happens after a successful count and the completion notification
does not fail, processed stays within the batch total and the status moves
monotonically queued, processing, then completed or failed, with failed
reached only from a non-terminal status. -/
theorem C7_batch_invariants (env : BulkEnv) :
    (∀ s ∈ observedStates env, s.validEmails + s.invalidEmails = s.processedEmails) ∧
    ((∀ s ∈ env.steps, ∀ v b, s ≠ EmailStep.okPostThrow v b) →
     (env.notifyUser = true → env.notifyThrow = false) →
     (∀ s ∈ observedStates env, s.processedEmails ≤ env.steps.length) ∧
     List.Chain' (fun a b => statusStepOk a b = true) (observedStatuses env)) := by
  have hsum := runEmails_sum env.steps {} rfl
  constructor
  · -- the sum invariant, unconditionally
    refine scanl_pred _ (bulkProcess env) {} rfl ?_
    intro s' w hw hP
    rcases habort : (runEmails {} env.steps).aborted with _ | msg <;>
      simp only [bulkProcess, habort] at hw
    · rcases List.mem_cons.mp hw with rfl | hw'
      · simpa [applyWrite] using hP
      · rcases List.mem_append.mp hw' with hl | hr
        · rcases List.mem_append.mp hl with hf | hc
          · obtain ⟨cc, rfl⟩ := runEmails_writes_flush env.steps {} w hf
            simpa [applyWrite] using hsum.2 cc hf
          · simp at hc
            rw [hc]
            simpa [applyWrite] using hsum.1
        · split at hr
          · simp at hr
            rw [hr]
            simpa [applyWrite] using hsum.1
          · simp at hr
    · rcases List.mem_cons.mp hw with rfl | hw'
      · simpa [applyWrite] using hP
      · rcases List.mem_append.mp hw' with hf | hc
        · obtain ⟨cc, rfl⟩ := runEmails_writes_flush env.steps {} w hf
          simpa [applyWrite] using hsum.2 cc hf
        · simp at hc
          rw [hc]
          simpa [applyWrite] using hsum.1
  · intro hno hnotify
    have hbound := runEmails_bound env.steps {} hno
    constructor
    · -- processed bounded by the total
      refine scanl_pred _ (bulkProcess env) {} (by simp) ?_
      intro s' w hw hP
      rcases habort : (runEmails {} env.steps).aborted with _ | msg <;>
        simp only [bulkProcess, habort] at hw
      · rcases List.mem_cons.mp hw with rfl | hw'
        · simpa [applyWrite] using hP
        · rcases List.mem_append.mp hw' with hl | hr
          · rcases List.mem_append.mp hl with hf | hc
            · obtain ⟨cc, rfl⟩ := runEmails_writes_flush env.steps {} w hf
              simpa [applyWrite] using hbound.2 cc hf
            · simp at hc
              rw [hc]
              simpa [applyWrite] using hbound.1
          · split at hr
            · simp at hr
              rw [hr]
              simpa [applyWrite] using hbound.1
            · simp at hr
      · rcases List.mem_cons.mp hw with rfl | hw'
        · simpa [applyWrite] using hP
        · rcases List.mem_append.mp hw' with hf | hc
          · obtain ⟨cc, rfl⟩ := runEmails_writes_flush env.steps {} w hf
            simpa [applyWrite] using hbound.2 cc hf
          · simp at hc
            rw [hc]
            simpa [applyWrite] using hbound.1
    · -- status monotonicity
      have hnn : (env.notifyUser && env.notifyThrow) = false := by
        cases hn : env.notifyUser
        · simp
        · simp [hnotify hn]
      have hflush := runEmails_writes_flush env.steps {}
      rcases habort : (runEmails {} env.steps).aborted with _ | msg
      · have hshape := statuses_flushes_terminal (runEmails {} env.steps).writes
          (applyWrite {} JobWrite.start)
          (JobWrite.complete (runEmails {} env.steps).counters) JobStatus.completed
          hflush (fun s' => rfl)
        have hlist : bulkProcess env
            = JobWrite.start :: ((runEmails {} env.steps).writes
                ++ [JobWrite.complete (runEmails {} env.steps).counters]) := by
          simp [bulkProcess, habort, hnn]
        unfold observedStatuses observedStates
        rw [hlist, List.scanl_cons, List.singleton_append, List.map_cons, hshape]
        exact chain_shape .completed (Or.inl rfl) (runEmails {} env.steps).writes.length
      · have hshape := statuses_flushes_terminal (runEmails {} env.steps).writes
          (applyWrite {} JobWrite.start)
          (JobWrite.fail msg (runEmails {} env.steps).counters) JobStatus.failed
          hflush (fun s' => rfl)
        have hlist : bulkProcess env
            = JobWrite.start :: ((runEmails {} env.steps).writes
                ++ [JobWrite.fail msg (runEmails {} env.steps).counters]) := by
          simp [bulkProcess, habort]
        unfold observedStatuses observedStates
        rw [hlist, List.scanl_cons, List.singleton_append, List.map_cons, hshape]
        exact chain_shape .failed (Or.inr rfl) (runEmails {} env.steps).writes.length

/-- Counterexample to C7 as stated: a one-email batch whose log write throws
after the email was already counted reaches an observable state with
processed 2 greater than total 1, and when the completion notification then
throws the job moves from completed to failed. -/
theorem C7_counterexample :
    observedStatuses postThrowBulkEnv
      = [.queued, .processing, .completed, .failed] ∧
    (observedStates postThrowBulkEnv).map JobState.processedEmails
      = [0, 0, 2, 2] ∧
    postThrowBulkEnv.steps.length = 1 := by
  decide

/-- Witness for C7_batch_invariants on a two-email batch with one failure
and no notification. -/
theorem C7_batch_invariants_witness :
    (∀ s ∈ observedStates plainBulkEnv,
       s.validEmails + s.invalidEmails = s.processedEmails) ∧
    (∀ s ∈ observedStates plainBulkEnv,
       s.processedEmails ≤ plainBulkEnv.steps.length) ∧
    List.Chain' (fun a b => statusStepOk a b = true)
      (observedStatuses plainBulkEnv) :=
  ⟨(C7_batch_invariants plainBulkEnv).1,
   ((C7_batch_invariants plainBulkEnv).2 (by decide) (by decide)).1,
   ((C7_batch_invariants plainBulkEnv).2 (by decide) (by decide)).2⟩

end EmailVerification
